import Mathlib

/-!
Verification development for the ytstudio-cli analytics registry and query
engine (`src/ytstudio/registry.py`, `src/ytstudio/commands/analytics.py`,
`src/ytstudio/ui.py`).

The Python code is shallowly embedded: strings are Lean `String`s (character
lists), Python `int` is `ℤ`/`ℕ`, loops with mutable locals become structural
recursions threading the locals, the CLI command's impure parts (current date,
authenticated channel id) become explicit parameters, and a command that can
`typer.Exit(1)` before issuing its API request becomes an `Except` value whose
`error` constructor records which validation failed.  CPython `float` values
are carried as exact rationals `num/den` (every finite double is such a
rational), and `f"{v:.1f}"`/`f"{v:.2f}"` formatting is modelled by correctly
rounded fixed-point conversion with ties to even, which is what CPython does.
-/

set_option maxRecDepth 100000
set_option maxHeartbeats 1000000

namespace YTStudio

/-- ASCII lowering of a character list; models `str.lower()` on the ASCII
strings the registry and CLI deal in. -/
def lowerL (l : List Char) : List Char := l.map Char.toLower

/-- Models `str.lower()`. -/
def lower (s : String) : String := String.mk (lowerL s.data)

/-- Does `l` start with `pre`? Helper for the substring test below. -/
def startsWithL : List Char → List Char → Bool
  | _, [] => true
  | [], _ :: _ => false
  | c :: rest, p :: ps => c = p && startsWithL rest ps

/-- Models Python's substring containment `needle in hay`. -/
def containsSub : List Char → List Char → Bool
  | [], needle => needle.isEmpty
  | hay@(_ :: rest), needle => startsWithL hay needle || containsSub rest needle

/-- Does `l` end with `suffix`? Used to state suffix facts about rendered
cells. -/
def endsWithL (l suffix : List Char) : Bool := startsWithL l.reverse suffix.reverse

/-- Python whitespace stripped by `str.strip()` (ASCII part). -/
def isPySpace (c : Char) : Bool :=
  c = ' ' || c = '\t' || c = '\n' || c = '\r' || c = '\x0b' || c = '\x0c'

/-- Models `str.strip()`: drop whitespace at both ends. -/
def stripL (l : List Char) : List Char :=
  ((l.dropWhile isPySpace).reverse.dropWhile isPySpace).reverse

/-- Split a character list on ',' (Python `str.split(",")`), keeping empty
pieces. -/
def splitCommaAux : List Char → List Char → List (List Char)
  | [], acc => [acc.reverse]
  | c :: rest, acc =>
      if c = ',' then acc.reverse :: splitCommaAux rest [] else splitCommaAux rest (c :: acc)

/-- `_parse_comma_list` of `commands/analytics.py`: split a comma-separated
string, strip whitespace, drop empty tokens. -/
def _parse_comma_list (value : String) : List String :=
  (splitCommaAux value.data []).filterMap fun piece =>
    let v := stripL piece
    if v.isEmpty then none else some (String.mk v)

/-- Models `";".join(...)` / `",".join(...)`. -/
def joinWith (sep : String) : List String → String
  | [] => ""
  | [s] => s
  | s :: rest => s ++ sep ++ joinWith sep rest

/-! ## `_levenshtein` of `registry.py`

The Python function compares the two strings exactly (no case folding of its
own; `_find_closest` lowercases before calling it), computing the distance
with two rolling rows.  `levNextRow` is the inner `for j, c2 in enumerate(s2)`
loop: it walks the remaining `s2` together with the remaining entries of
`prev_row`, threading `left = curr_row[j]` (the Python list's last appended
element); `levLoop` is the outer `for i, c1 in enumerate(s1)` loop. -/

/-- Inner loop of `_levenshtein`: given the next character `c1` of `s1`, the
remaining suffix of `s2`, the matching suffix of `prev_row`, and the last
value appended to `curr_row`, produce the rest of `curr_row`.
`insertions = prev_row[j+1] + 1`, `deletions = curr_row[j] + 1`,
`substitutions = prev_row[j] + (c1 != c2)`. -/
def levNextRow (c1 : Char) : List Char → List ℕ → ℕ → List ℕ
  | [], _, _ => []
  | _ :: _, [], _ => []
  | c2 :: rest, pj :: prest, left =>
      let cur := min (prest.headD 0 + 1) (min (left + 1) (pj + (if c1 = c2 then 0 else 1)))
      cur :: levNextRow c1 rest prest cur

/-- Outer loop of `_levenshtein`: `prev_row = curr_row` after each row, where
`curr_row = [i + 1] ++ levNextRow ...`. -/
def levLoop (s2 : List Char) : List Char → List ℕ → ℕ → List ℕ
  | [], prev, _ => prev
  | c1 :: rest, prev, i => levLoop s2 rest ((i + 1) :: levNextRow c1 s2 prev (i + 1)) (i + 1)

/-- Body of `_levenshtein` after the argument swap: early return `len(s1)`
when `s2` is empty, otherwise run the rolling rows from
`prev_row = range(len(s2) + 1)` and return the final row's last entry. -/
def levCore (s1 s2 : List Char) : ℕ :=
  if s2.length = 0 then s1.length
  else (levLoop s2 s1 (List.range (s2.length + 1)) 0).getLastD 0

/-- `_levenshtein(s1, s2)`: if `len(s1) < len(s2)` the arguments are swapped
(the Python function calls itself once with the arguments exchanged). -/
def _levenshtein (s1 s2 : List Char) : ℕ :=
  if s1.length < s2.length then levCore s2 s1 else levCore s1 s2

/-- The distance `_find_closest` uses: `_levenshtein(name.lower(), candidate.lower())`. -/
def levLower (name candidate : String) : ℕ :=
  _levenshtein (lower name).data (lower candidate).data

/-- The `for candidate in candidates` loop of `_find_closest`, threading
`best` and `best_dist`. -/
def _find_closest_go (name : String) : List String → Option String → ℕ → Option String × ℕ
  | [], best, best_dist => (best, best_dist)
  | candidate :: rest, best, best_dist =>
      let dist := levLower name candidate
      if dist < best_dist then _find_closest_go name rest (some candidate) dist
      else _find_closest_go name rest best best_dist

/-- `_find_closest(name, candidates, max_distance)` of `registry.py`:
best starts at `None` with `best_dist = max_distance + 1`; the result is
`best` if `best_dist <= max_distance` else `None`. -/
def _find_closest (name : String) (candidates : List String) (max_distance : ℕ) : Option String :=
  let r := _find_closest_go name candidates none (max_distance + 1)
  if r.2 ≤ max_distance then r.1 else none

/-! ## The registry (`registry.py`)

`METRICS` and `DIMENSIONS` are dict literals built from lists; a Python dict
keeps insertion order, so each is embedded as the list of its entries in
source order, with names as the plain strings the `StrEnum` members equal. -/

/-- A metric registry entry. -/
structure Metric where
  name : String
  description : String
  group : String
  core : Bool := false
  monetary : Bool := false
deriving DecidableEq

/-- A dimension registry entry. -/
structure Dimension where
  name : String
  description : String
  group : String
  filter_only : Bool := false
deriving DecidableEq

/-- The metric registry, entries in source order. -/
def METRICS : List Metric := [
  ⟨"views", "Number of times videos were viewed", "views", true, false⟩,
  ⟨"engagedViews", "Views past the initial seconds", "views", true, false⟩,
  ⟨"redViews", "Views by YouTube Premium members", "views", false, false⟩,
  ⟨"viewerPercentage", "Percentage of logged-in viewers", "views", true, false⟩,
  ⟨"videoThumbnailImpressions", "Times thumbnails were shown to viewers", "reach", false, false⟩,
  ⟨"videoThumbnailImpressionsClickRate", "Percentage of impressions that became views (CTR)",
    "reach", false, false⟩,
  ⟨"estimatedMinutesWatched", "Total minutes watched", "watch_time", true, false⟩,
  ⟨"estimatedRedMinutesWatched", "Minutes watched by YouTube Premium members", "watch_time",
    false, false⟩,
  ⟨"averageViewDuration", "Average playback length in seconds", "watch_time", true, false⟩,
  ⟨"averageViewPercentage", "Average percentage of video watched", "watch_time", false, false⟩,
  ⟨"likes", "Number of likes", "engagement", true, false⟩,
  ⟨"dislikes", "Number of dislikes", "engagement", true, false⟩,
  ⟨"comments", "Number of comments", "engagement", true, false⟩,
  ⟨"shares", "Number of shares via the Share button", "engagement", true, false⟩,
  ⟨"subscribersGained", "New subscribers gained", "engagement", true, false⟩,
  ⟨"subscribersLost", "Subscribers lost", "engagement", true, false⟩,
  ⟨"videosAddedToPlaylists", "Times videos were added to any playlist", "engagement",
    false, false⟩,
  ⟨"videosRemovedFromPlaylists", "Times videos were removed from any playlist", "engagement",
    false, false⟩,
  ⟨"cardImpressions", "Number of card impressions", "cards", false, false⟩,
  ⟨"cardClicks", "Number of card clicks", "cards", false, false⟩,
  ⟨"cardClickRate", "Card click-through rate", "cards", false, false⟩,
  ⟨"cardTeaserImpressions", "Number of card teaser impressions", "cards", false, false⟩,
  ⟨"cardTeaserClicks", "Number of card teaser clicks", "cards", false, false⟩,
  ⟨"cardTeaserClickRate", "Card teaser click-through rate", "cards", false, false⟩,
  ⟨"annotationImpressions", "Total annotation impressions", "annotations", false, false⟩,
  ⟨"annotationClicks", "Number of annotation clicks", "annotations", false, false⟩,
  ⟨"annotationClickThroughRate", "Annotation click-through rate", "annotations", true, false⟩,
  ⟨"annotationClosableImpressions", "Closable annotation impressions", "annotations",
    false, false⟩,
  ⟨"annotationCloses", "Number of annotation closes", "annotations", false, false⟩,
  ⟨"annotationCloseRate", "Annotation close rate", "annotations", true, false⟩,
  ⟨"annotationClickableImpressions", "Clickable annotation impressions", "annotations",
    false, false⟩,
  ⟨"estimatedRevenue", "Estimated total net revenue", "revenue", true, true⟩,
  ⟨"estimatedAdRevenue", "Estimated ad net revenue", "revenue", false, true⟩,
  ⟨"grossRevenue", "Estimated gross revenue from ads", "revenue", false, true⟩,
  ⟨"estimatedRedPartnerRevenue", "Estimated YouTube Premium revenue", "revenue", false, true⟩,
  ⟨"monetizedPlaybacks", "Playbacks that showed at least one ad", "revenue", false, true⟩,
  ⟨"playbackBasedCpm", "Estimated gross revenue per 1000 playbacks", "revenue", false, true⟩,
  ⟨"adImpressions", "Number of verified ad impressions", "revenue", false, true⟩,
  ⟨"cpm", "Estimated gross revenue per 1000 ad impressions", "revenue", false, true⟩,
  ⟨"playlistViews", "Video views in the context of a playlist", "playlist", false, false⟩,
  ⟨"playlistStarts", "Number of times playlist playback was initiated", "playlist",
    false, false⟩,
  ⟨"viewsPerPlaylistStart", "Average views per playlist start", "playlist", false, false⟩,
  ⟨"averageTimeInPlaylist", "Average time (min) viewers spent in playlist", "playlist",
    false, false⟩,
  ⟨"playlistSaves", "Net number of playlist saves", "playlist", false, false⟩,
  ⟨"playlistEstimatedMinutesWatched", "Minutes watched in playlist context", "playlist",
    false, false⟩,
  ⟨"playlistAverageViewDuration", "Average video view length in playlist context", "playlist",
    false, false⟩,
  ⟨"uniques", "Estimated unique viewers", "audience", false, false⟩]

/-- The dimension registry, entries in source order. -/
def DIMENSIONS : List Dimension := [
  ⟨"day", "Date in YYYY-MM-DD format", "time", false⟩,
  ⟨"month", "Month in YYYY-MM format", "time", false⟩,
  ⟨"country", "Two-letter ISO 3166-1 country code", "geographic", false⟩,
  ⟨"province", "US state (ISO 3166-2, requires country==US filter)", "geographic", false⟩,
  ⟨"city", "Estimated city (available from 2022-01-01)", "geographic", false⟩,
  ⟨"continent", "UN statistical region code", "geographic", true⟩,
  ⟨"subContinent", "UN sub-region code", "geographic", true⟩,
  ⟨"dma", "Nielsen Designated Market Area (3-digit)", "geographic", false⟩,
  ⟨"video", "YouTube video ID", "content", false⟩,
  ⟨"playlist", "YouTube playlist ID", "content", false⟩,
  ⟨"group", "YouTube Analytics group ID", "content", true⟩,
  ⟨"creatorContentType", "Content type: shorts, videos, or live", "content", false⟩,
  ⟨"insightTrafficSourceType", "Traffic source category", "traffic", false⟩,
  ⟨"insightTrafficSourceDetail", "Specific traffic source (search term, URL)", "traffic",
    false⟩,
  ⟨"playbackLocationType", "Where the video was played (watch page, embed, etc)", "playback",
    false⟩,
  ⟨"liveOrOnDemand", "Whether content was live or on-demand", "playback", false⟩,
  ⟨"deviceType", "Device type (mobile, desktop, tablet, tv, etc)", "device", false⟩,
  ⟨"operatingSystem", "Operating system", "device", false⟩,
  ⟨"ageGroup", "Viewer age group", "audience", false⟩,
  ⟨"gender", "Viewer gender", "audience", false⟩,
  ⟨"subscribedStatus", "Whether viewer is subscribed", "audience", false⟩,
  ⟨"youtubeProduct", "YouTube product (main, shorts, music, etc)", "audience", false⟩,
  ⟨"sharingService", "Service used to share (whatsapp, twitter, etc)", "sharing", false⟩,
  ⟨"adType", "Type of ad that ran during playback", "ads", false⟩]

/-- `list(METRICS.keys())`: the metric names in insertion order. -/
def METRIC_NAMES : List String := METRICS.map (fun m => m.name)

/-- `list(DIMENSIONS.keys())`: the dimension names in insertion order. -/
def DIMENSION_NAMES : List String := DIMENSIONS.map (fun d => d.name)

/-- Code-point lexicographic strict order on character lists: Python's `<`
on strings. -/
def lexLt : List Char → List Char → Bool
  | [], [] => false
  | [], _ :: _ => true
  | _ :: _, [] => false
  | a :: as, b :: bs => if a < b then true else if b < a then false else lexLt as bs

/-- Insert into a lexicographically sorted list of strings. -/
def insertSorted (s : String) : List String → List String
  | [] => [s]
  | h :: t => if lexLt s.data h.data then s :: h :: t else h :: insertSorted s t

/-- Models `sorted(...)` for lists of strings. -/
def sortStrings (l : List String) : List String := l.foldr insertSorted []

/-- Models building `set(...)` from a list: the distinct values, first
occurrences kept (the order is irrelevant once sorted). -/
def distinctAux : List String → List String → List String
  | [], _ => []
  | h :: t, seen => if seen.contains h then distinctAux t seen else h :: distinctAux t (h :: seen)

/-- The distinct values of a list of strings. -/
def distinct (l : List String) : List String := distinctAux l []

/-- `METRIC_GROUPS = sorted({m.group for m in METRICS.values()})`. -/
def METRIC_GROUPS : List String := sortStrings (distinct (METRICS.map (fun m => m.group)))

/-- `DIMENSION_GROUPS = sorted({d.group for d in DIMENSIONS.values()})`. -/
def DIMENSION_GROUPS : List String := sortStrings (distinct (DIMENSIONS.map (fun d => d.group)))

/-- `find_closest_metric(name, max_distance=3)`. -/
def find_closest_metric (name : String) (max_distance : ℕ := 3) : Option String :=
  _find_closest name METRIC_NAMES max_distance

/-- `find_closest_dimension(name, max_distance=3)`. -/
def find_closest_dimension (name : String) (max_distance : ℕ := 3) : Option String :=
  _find_closest name DIMENSION_NAMES max_distance

/-- The error message `validate_metrics` builds for one unknown name.  Every
registered name is nonempty, so Python's `if suggestion:` is "a suggestion was
found". -/
def metricError (name : String) : String :=
  "Unknown metric '" ++ name ++ "'." ++
    match find_closest_metric name with
    | some suggestion => " Did you mean '" ++ suggestion ++ "'?"
    | none => ""

/-- The error message `validate_dimensions` builds for one unknown name. -/
def dimensionError (name : String) : String :=
  "Unknown dimension '" ++ name ++ "'." ++
    match find_closest_dimension name with
    | some suggestion => " Did you mean '" ++ suggestion ++ "'?"
    | none => ""

/-- `validate_metrics(names)`: one error per name not in the registry, in
input order. -/
def validate_metrics : List String → List String
  | [] => []
  | name :: rest =>
      if METRIC_NAMES.contains name then validate_metrics rest
      else metricError name :: validate_metrics rest

/-- `validate_dimensions(names)`. -/
def validate_dimensions : List String → List String
  | [] => []
  | name :: rest =>
      if DIMENSION_NAMES.contains name then validate_dimensions rest
      else dimensionError name :: validate_dimensions rest

/-! ## The `query` command (`commands/analytics.py`)

The command's pure prefix — parsing, registry validation, filter checking and
parameter building, everything up to `api(analytics_service.reports().query(**query_params))`
— is embedded as a function to `Except`.  The impure inputs (today's date
string, the `--days`-ago date string, the authenticated channel id) are
parameters; an `error` result models `typer.Exit(1)` before the API request,
an `ok` result carries the `query_params` the request would be sent with. -/

/-- The `typer` option values `query` receives.  `none` models a Python
`None` default; Python truthiness (`if sort:`, `if limit:`, `if currency:`)
is applied where the source applies it. -/
structure QueryArgs where
  metrics_str : String
  dimensions_str : Option String := none
  filter_list : List String := []
  start : Option String := none
  endOpt : Option String := none
  days : ℤ := 28
  sort : Option String := none
  limit : Option ℤ := none
  currency : Option String := none
  output : String := "table"
deriving DecidableEq

/-- The distinct `typer.Exit(1)` sites of `query` that precede the API
request, each carrying the message(s) printed there. -/
inductive QueryError where
  | noMetrics
  | unknownMetrics (errors : List String)
  | unknownDimensions (errors : List String)
  | invalidFilter (token : String)
deriving DecidableEq

/-- The keyword arguments `query_params` passed to `reports().query(...)`;
an optional field left `none` models a key not added to the dict. -/
structure QueryParams where
  ids : String
  startDate : String
  endDate : String
  metrics : String
  dimensions : Option String := none
  filters : Option String := none
  sort : Option String := none
  maxResults : Option ℤ := none
  currency : Option String := none
deriving DecidableEq

/-- Decidable equality of `Except` results, needed to evaluate the embedded
command on concrete inputs. -/
instance {ε α : Type} [DecidableEq ε] [DecidableEq α] : DecidableEq (Except ε α) := fun a b =>
  match a, b with
  | .ok x, .ok y =>
      if h : x = y then isTrue (by rw [h]) else isFalse (fun hh => h (Except.ok.inj hh))
  | .error x, .error y =>
      if h : x = y then isTrue (by rw [h]) else isFalse (fun hh => h (Except.error.inj hh))
  | .ok _, .error _ => isFalse (fun hh => Except.noConfusion hh)
  | .error _, .ok _ => isFalse (fun hh => Except.noConfusion hh)

/-- Python `x or default` for an optional string (`None` and `""` are falsy). -/
def pyOrStr (o : Option String) (default : String) : String :=
  match o with
  | some s => if s = "" then default else s
  | none => default

/-- Python `if s:` for an optional string option that is added to
`query_params` only when truthy. -/
def pyTruthyStr (o : Option String) : Option String :=
  match o with
  | some s => if s = "" then none else some s
  | none => none

/-- Python `if n:` for an optional int option (`None` and `0` are falsy). -/
def pyTruthyInt (o : Option ℤ) : Option ℤ :=
  match o with
  | some n => if n = 0 then none else some n
  | none => none

/-- `dimension_names = _parse_comma_list(dimensions_str) if dimensions_str else []`. -/
def queryDimensionNames (args : QueryArgs) : List String :=
  match args.dimensions_str with
  | some s => if s = "" then [] else _parse_comma_list s
  | none => []

/-- The `query_params` dict the success path of `query` builds. -/
def queryParamsOf (args : QueryArgs) (today default_start channel_id : String) : QueryParams :=
  { ids := "channel==" ++ channel_id
    startDate := pyOrStr args.start default_start
    endDate := pyOrStr args.endOpt today
    metrics := joinWith "," (_parse_comma_list args.metrics_str)
    dimensions :=
      if (queryDimensionNames args).isEmpty then none
      else some (joinWith "," (queryDimensionNames args))
    filters :=
      if args.filter_list.isEmpty then none else some (joinWith ";" args.filter_list)
    sort := pyTruthyStr args.sort
    maxResults := pyTruthyInt args.limit
    currency := pyTruthyStr args.currency }

/-- The `query` command up to its API request (`commands/analytics.py`,
`def query`): metric parsing and validation, dimension validation, filter
format checking (first token without `"=="` wins), then parameter building.
In the source every `error` site runs before `get_services()` is called, so
an `error` result means no network request of any kind was issued. -/
def query (args : QueryArgs) (today default_start channel_id : String) :
    Except QueryError QueryParams :=
  let metric_names := _parse_comma_list args.metrics_str
  if metric_names.isEmpty then .error .noMetrics
  else
    let merrors := validate_metrics metric_names
    if merrors.isEmpty then
      let dimension_names := queryDimensionNames args
      let derrors := if dimension_names.isEmpty then [] else validate_dimensions dimension_names
      if derrors.isEmpty then
        match args.filter_list.find? (fun f => ! containsSub f.data "==".data) with
        | some f => .error (.invalidFilter f)
        | none => .ok (queryParamsOf args today default_start channel_id)
      else .error (.unknownDimensions derrors)
    else .error (.unknownMetrics merrors)

/-! ## Number formatting (`ui.py`)

`format_number` reads the module-global raw flag set by `set_raw_output`;
the flag is passed explicitly here.  `f"{n / 1_000:.1f}"` divides two Python
ints producing the IEEE-754 double nearest to the true quotient, then formats
that double with one correctly rounded decimal digit (ties to even).  The
double is modelled by its exact rational value `num/den`. -/

/-- Fuel-driven bit length: `bitsAux fuel n` is the binary length of `n`
whenever `fuel ≥ n`. -/
def bitsAux : ℕ → ℕ → ℕ
  | 0, _ => 0
  | fuel + 1, n => if n = 0 then 0 else bitsAux fuel (n / 2) + 1

/-- Binary length of a natural number (`0` has length `0`). -/
def numBits (n : ℕ) : ℕ := bitsAux n n

/-- Round `a / b` to the nearest integer, ties to even (`b = 0` gives `0`). -/
def rhe (a b : ℕ) : ℕ :=
  if b = 0 then 0 else
    let q := a / b
    let r := a % b
    if 2 * r < b then q else if b < 2 * r then q + 1 else if q % 2 = 0 then q else q + 1

/-- The IEEE-754 binary64 value nearest to `n / d` (round to nearest, ties to
even), as an exact fraction `(num, den)`.  `n = 0` or `d = 0` gives `0/1`;
the model covers the normal range, which the CLI's magnitudes stay in. -/
def pyDivDouble (n d : ℕ) : ℕ × ℕ :=
  if n = 0 ∨ d = 0 then (0, 1)
  else
    let t := numBits d
    let kp := numBits (n * 2 ^ t / d)
    let s := 53 + t
    if kp ≤ s then (rhe (n * 2 ^ (s - kp)) d, 2 ^ (s - kp))
    else (rhe n (d * 2 ^ (kp - s)) * 2 ^ (kp - s), 1)

/-- CPython `f"{v:.1f}"` for a nonnegative double of exact value `num/den`:
one correctly rounded decimal digit, ties to even. -/
def py1f (num den : ℕ) : String :=
  let r := rhe (num * 10) den
  Nat.repr (r / 10) ++ "." ++ Nat.repr (r % 10)

/-- CPython `f"{v:.2f}"` for a nonnegative double of exact value `num/den`. -/
def py2f (num den : ℕ) : String :=
  let r := rhe (num * 100) den
  Nat.repr (r / 100) ++ "." ++ (if r % 100 < 10 then "0" else "") ++ Nat.repr (r % 100)

/-- `format_number(n)` of `ui.py`, with the module's raw-output flag passed
explicitly: plain `str(n)` in raw mode or under 1000, otherwise one-decimal
`K`/`M` abbreviation of the double quotient. -/
def format_number (raw : Bool) (n : ℤ) : String :=
  if raw then Int.repr n
  else if n ≥ 1000000 then py1f (pyDivDouble n.toNat 1000000).1 (pyDivDouble n.toNat 1000000).2 ++ "M"
  else if n ≥ 1000 then py1f (pyDivDouble n.toNat 1000).1 (pyDivDouble n.toNat 1000).2 ++ "K"
  else Int.repr n

/-! ## Response formatting (`commands/analytics.py`)

A `reports().query` response is a dict with `columnHeaders` (whose `name`
fields the code extracts) and `rows`, each row a list of JSON scalars.  A
scalar is a string, an int, or a double (carried as its exact rational
value, nonnegative in every response field). -/

/-- A JSON scalar in a response row. -/
inductive PyVal where
  | str (s : String)
  | int (n : ℤ)
  | float (num den : ℕ)
deriving DecidableEq

/-- A tabular response: the extracted header names and the rows. -/
structure QueryResponse where
  columnHeaders : List String
  rows : List (List PyVal)
deriving DecidableEq

/-- Decimal digit count of a natural number (`0` counts one digit). -/
def digits10 (n : ℕ) : ℕ := (Nat.repr n).length

/-- Exact `⌊log10 (num/den)⌋` for positive `num`, `den`. -/
def floorLog10 (num den : ℕ) : ℤ :=
  let t := digits10 den
  (digits10 (num * 10 ^ t / den) : ℤ) - 1 - t

/-- The `k`-significant-digit decimal mantissa of `num/den` (rounded, ties to
even), paired with `k`. -/
def sigDigits (num den : ℕ) (k : ℕ) : ℕ :=
  let p : ℤ := (k : ℤ) - 1 - floorLog10 num den
  if p ≥ 0 then rhe (num * 10 ^ p.toNat) den else rhe num (den * 10 ^ (-p).toNat)

/-- Does the decimal `m × 10^(e10+1-k)` convert back to the double
`num/den`? -/
def sigRoundTrips (num den k m : ℕ) : Bool :=
  let p : ℤ := (k : ℤ) - 1 - floorLog10 num den
  let back := if p ≥ 0 then pyDivDouble m (10 ^ p.toNat) else pyDivDouble (m * 10 ^ (-p).toNat) 1
  back.1 * den = num * back.2

/-- Left-pad a decimal rendering with zeros to `width` characters. -/
def padZeros (width : ℕ) (n : ℕ) : String :=
  String.mk (List.replicate (width - digits10 n) '0') ++ Nat.repr n

/-- CPython `str(float)` for a nonnegative double of exact value `num/den`,
modelled for the positional range (`1e-4 ≤ v < 1e16`, plus zero and whole
numbers): the shortest significant-digit count whose rounding converts back
to the same double, rendered with at least one fractional digit.  Reached
only by CSV rows holding doubles; no theorem below evaluates it. -/
def floatRepr (num den : ℕ) : String :=
  if num = 0 then "0.0"
  else
    let k : ℕ := (((List.range 16).findSome? fun k0 =>
      if sigRoundTrips num den (k0 + 1) (sigDigits num den (k0 + 1)) then some (k0 + 1)
      else none).getD 17)
    let m := sigDigits num den k
    let intDigits : ℤ := floorLog10 num den + 1
    if (k : ℤ) ≤ intDigits then Nat.repr (m * 10 ^ (intDigits - (k : ℤ)).toNat) ++ ".0"
    else if 0 < intDigits then
      let fracDigits := ((k : ℤ) - intDigits).toNat
      Nat.repr (m / 10 ^ fracDigits) ++ "." ++ padZeros fracDigits (m % 10 ^ fracDigits)
    else "0." ++ String.mk (List.replicate (-intDigits).toNat '0') ++ Nat.repr m

/-- Python `str(value)` on a row scalar, as the `csv` writer applies it. -/
def cellStr : PyVal → String
  | .str s => s
  | .int n => Int.repr n
  | .float num den => floatRepr num den

/-- The JSON branch of `_format_query_response`:
`records = [dict(zip(headers, row, strict=False)) for row in rows]`, each
record as its key/value pairs in order (`zip` stops at the shorter list). -/
def _format_query_json (resp : QueryResponse) : List (List (String × PyVal)) :=
  resp.rows.map fun row => resp.columnHeaders.zip row

/-- Does a CSV field need quoting under the `csv` module's default
`QUOTE_MINIMAL` dialect (delimiter, quote char, or line-terminator char)? -/
def csvNeedsQuote (s : String) : Bool :=
  s.data.any fun c => c = ',' || c = '"' || c = '\r' || c = '\n'

/-- One CSV field, minimally quoted, embedded quotes doubled. -/
def csvField (s : String) : String :=
  if csvNeedsQuote s then
    "\"" ++ String.mk (s.data.flatMap fun c => if c = '"' then ['"', '"'] else [c]) ++ "\""
  else s

/-- One CSV record: fields joined by the `,` delimiter. -/
def csvRow (fields : List String) : String := joinWith "," (fields.map csvField)

/-- The CSV branch of `_format_query_response`: `writer.writerow(headers)`
then `writer.writerows(rows)`, as the list of records written (the writer
terminates each with `"\r\n"`). -/
def _format_query_csv_lines (resp : QueryResponse) : List String :=
  csvRow resp.columnHeaders :: resp.rows.map fun row => csvRow (row.map cellStr)

/-- `_format_cell(header, value)` of `commands/analytics.py`, with the raw
flag `format_number` reads passed explicitly.  Only a `float` value gets the
rate/percentage/ctr and cpm naming heuristics; an `int` goes through
`format_number`, anything else through `str`. -/
def _format_cell (raw : Bool) (header : String) : PyVal → String
  | .float num den =>
      if containsSub (lowerL header.data) "rate".data ||
          containsSub (lowerL header.data) "percentage".data ||
          containsSub (lowerL header.data) "ctr".data then
        py2f num den ++ "%"
      else if containsSub (lowerL header.data) "cpm".data then
        "$" ++ py2f num den
      else py1f num den
  | .int n => format_number raw n
  | .str s => s

/-! ## Specification-side definitions

`editDist` is the classic textbook edit-distance recurrence the spec appeals
to (insertion, deletion, substitution each cost 1), written independently of
the rolling-row implementation; `editDistCI` is the case-insensitive variant
the spec's words ascribe to `_levenshtein` itself.  `rowOf` is the proof-side
description of a dynamic-programming row: entry `j` is the distance between
the processed prefix of `s1` and the length-`j` prefix of `s2`, both held
reversed so that extending a prefix is a `cons`. -/

/-- Classic edit distance (textbook recurrence), exact character comparison. -/
def editDist : List Char → List Char → ℕ
  | [], t => t.length
  | _ :: s, [] => s.length + 1
  | a :: s, b :: t =>
      min (editDist s (b :: t) + 1)
        (min (editDist (a :: s) t + 1) (editDist s t + (if a = b then 0 else 1)))
termination_by s t => s.length + t.length
decreasing_by all_goals (simp only [List.length_cons]; omega)

/-- Case-insensitive classic edit distance: the comparison the spec sentence
attributes to the Levenshtein function. -/
def editDistCI (s t : List Char) : ℕ := editDist (lowerL s) (lowerL t)

/-- The dynamic-programming row for processed (reversed) prefix `P` of `s1`:
entries are `editDist P Q` as the processed (reversed) prefix `Q` of `s2`
extends across `rest`. -/
def rowOf (P : List Char) : List Char → List Char → List ℕ
  | Qrev, [] => [editDist P Qrev]
  | Qrev, c2 :: rest => editDist P Qrev :: rowOf P (c2 :: Qrev) rest

end YTStudio


namespace YTStudio

/-! ## Correctness of `_levenshtein` (claim C4) -/

theorem editDist_nil_left (t : List Char) : editDist [] t = t.length := by
  simp [editDist]

theorem editDist_cons_nil (a : Char) (s : List Char) : editDist (a :: s) [] = s.length + 1 := by
  simp [editDist]

theorem editDist_cons_cons (a : Char) (s : List Char) (b : Char) (t : List Char) :
    editDist (a :: s) (b :: t) =
      min (editDist s (b :: t) + 1)
        (min (editDist (a :: s) t + 1) (editDist s t + (if a = b then 0 else 1))) := by
  rw [editDist]

theorem editDist_nil_right (s : List Char) : editDist s [] = s.length := by
  cases s with
  | nil => rw [editDist_nil_left]
  | cons a s => rw [editDist_cons_nil, List.length_cons]


/-- The classic distance is symmetric. -/
theorem editDist_comm : ∀ s t : List Char, editDist s t = editDist t s
  | [], t => by rw [editDist_nil_left, editDist_nil_right]
  | a :: s, [] => by rw [editDist_nil_right, editDist_nil_left]
  | a :: s, b :: t => by
      rw [editDist_cons_cons, editDist_cons_cons, editDist_comm s (b :: t),
        editDist_comm (a :: s) t, editDist_comm s t]
      by_cases h : a = b
      · rw [if_pos h, if_pos h.symm]
        omega
      · rw [if_neg h, if_neg (fun hb => h hb.symm)]
        omega
termination_by s t => s.length + t.length
decreasing_by all_goals (simp only [List.length_cons]; omega)

/-- The classic recurrence also holds at the back of both strings. -/
theorem editDist_snoc_snoc : ∀ (p q : List Char) (c d : Char),
    editDist (p ++ [c]) (q ++ [d]) =
      min (editDist p (q ++ [d]) + 1)
        (min (editDist (p ++ [c]) q + 1) (editDist p q + (if c = d then 0 else 1)))
  | [], [], _, _ => by
      simp only [List.nil_append]
      rw [editDist_cons_cons]
  | [], e :: q', c, d => by
      have ih := editDist_snoc_snoc [] q' c d
      simp only [List.nil_append, List.cons_append] at ih ⊢
      rw [editDist_cons_cons c [] e (q' ++ [d]), ih, editDist_cons_cons c [] e q']
      simp only [editDist_nil_left, List.length_append, List.length_cons, List.length_nil]
      simp only [← min_add_add_right]
      apply Nat.le_antisymm <;> simp only [le_min_iff, min_le_iff] <;> omega
  | g :: p', [], c, d => by
      have ih := editDist_snoc_snoc p' [] c d
      simp only [List.nil_append, List.cons_append] at ih ⊢
      rw [editDist_cons_cons g (p' ++ [c]) d [], ih, editDist_cons_cons g p' d []]
      simp only [editDist_nil_right, List.length_append, List.length_cons, List.length_nil]
      simp only [← min_add_add_right]
      apply Nat.le_antisymm <;> simp only [le_min_iff, min_le_iff] <;> omega
  | g :: p', e :: q', c, d => by
      have ihA := editDist_snoc_snoc p' (e :: q') c d
      have ihB := editDist_snoc_snoc (g :: p') q' c d
      have ihC := editDist_snoc_snoc p' q' c d
      simp only [List.cons_append] at ihA ihB ihC ⊢
      rw [editDist_cons_cons g (p' ++ [c]) e (q' ++ [d]), ihA, ihB, ihC,
        editDist_cons_cons g p' e (q' ++ [d]), editDist_cons_cons g (p' ++ [c]) e q',
        editDist_cons_cons g p' e q']
      simp only [← min_add_add_right]
      apply Nat.le_antisymm <;> simp only [le_min_iff, min_le_iff] <;> omega
termination_by p q c d => p.length + q.length
decreasing_by all_goals (simp only [List.length_cons]; omega)

/-- The classic distance is invariant under reversing both strings. -/
theorem editDist_reverse : ∀ s t : List Char, editDist s.reverse t.reverse = editDist s t
  | [], t => by
      simp only [List.reverse_nil]
      rw [editDist_nil_left, editDist_nil_left, List.length_reverse]
  | a :: s, [] => by
      simp only [List.reverse_nil, List.reverse_cons]
      rw [editDist_nil_right, editDist_nil_right]
      simp [List.length_append, List.length_reverse]
  | a :: s, b :: t => by
      have hs := editDist_reverse s (b :: t)
      have ht := editDist_reverse (a :: s) t
      have hst := editDist_reverse s t
      simp only [List.reverse_cons] at hs ht ⊢
      rw [editDist_snoc_snoc, hs, ht, hst, editDist_cons_cons]
termination_by s t => s.length + t.length
decreasing_by all_goals (simp only [List.length_cons]; omega)

theorem rowOf_cons_shape (P Qrev rest : List Char) :
    rowOf P Qrev rest = editDist P Qrev :: (rowOf P Qrev rest).tail := by
  cases rest <;> rfl

theorem rowOf_headD (P Qrev rest : List Char) :
    (rowOf P Qrev rest).headD 0 = editDist P Qrev := by
  cases rest <;> rfl

/-- The inner rolling-row loop turns the row for prefix `P` into the row for
prefix `c :: P` (rows over reversed prefixes, `Qrev` entries already done). -/
theorem levNextRow_rowOf (c : Char) : ∀ (rest Qrev P : List Char),
    levNextRow c rest (rowOf P Qrev rest) (editDist (c :: P) Qrev) =
      (rowOf (c :: P) Qrev rest).tail
  | [], _, _ => rfl
  | c2 :: rest', Qrev, P => by
      have ih := levNextRow_rowOf c rest' (c2 :: Qrev) P
      rw [show rowOf P Qrev (c2 :: rest') = editDist P Qrev :: rowOf P (c2 :: Qrev) rest'
        from rfl]
      simp only [levNextRow]
      rw [rowOf_headD P (c2 :: Qrev) rest', ← editDist_cons_cons c P c2 Qrev, ih,
        ← rowOf_cons_shape (c :: P) (c2 :: Qrev) rest']
      rfl

/-- The outer loop, started on the row for prefix `P`, ends on the row for
the whole of `s1` prepended (reversed) to `P`. -/
theorem levLoop_rowOf (s2 : List Char) : ∀ (rest P : List Char),
    levLoop s2 rest (rowOf P [] s2) P.length = rowOf (rest.reverse ++ P) [] s2
  | [], P => by rw [levLoop, List.reverse_nil, List.nil_append]
  | c1 :: rest', P => by
      have ih := levLoop_rowOf s2 rest' (c1 :: P)
      have hlen : editDist (c1 :: P) [] = P.length + 1 := by
        rw [editDist_nil_right, List.length_cons]
      have hrow : (P.length + 1) :: levNextRow c1 s2 (rowOf P [] s2) (P.length + 1) =
          rowOf (c1 :: P) [] s2 := by
        rw [← hlen, levNextRow_rowOf c1 s2 [] P, ← rowOf_cons_shape (c1 :: P) [] s2]
      simp only [levLoop]
      rw [hrow, show P.length + 1 = (c1 :: P).length from (List.length_cons c1 P).symm, ih]
      simp [List.reverse_cons, List.append_assoc]

theorem rowOf_nil_left : ∀ (rest Qrev : List Char),
    rowOf [] Qrev rest = List.range' Qrev.length (rest.length + 1)
  | [], Qrev => by
      rw [rowOf, editDist_nil_left, List.range'_succ]
      rfl
  | c :: rest', Qrev => by
      rw [rowOf, editDist_nil_left, rowOf_nil_left rest' (c :: Qrev), List.length_cons]
      simp [List.range'_succ]

theorem rowOf_getLastD : ∀ (rest Qrev P : List Char) (d : ℕ),
    (rowOf P Qrev rest).getLastD d = editDist P (rest.reverse ++ Qrev)
  | [], Qrev, P, d => by rw [rowOf, List.getLastD_cons, List.getLastD_nil, List.reverse_nil,
      List.nil_append]
  | c :: rest', Qrev, P, d => by
      rw [rowOf, List.getLastD_cons, rowOf_getLastD rest' (c :: Qrev) P, List.reverse_cons,
        List.append_assoc, List.singleton_append]

/-- The body of `_levenshtein` (after the swap) computes the classic
distance. -/
theorem levCore_editDist (s1 s2 : List Char) : levCore s1 s2 = editDist s1 s2 := by
  unfold levCore
  by_cases h : s2.length = 0
  · obtain rfl := List.length_eq_zero.mp h
    rw [editDist_nil_right]
    simp
  · rw [if_neg h]
    have init : List.range (s2.length + 1) = rowOf [] [] s2 := by
      rw [rowOf_nil_left, List.range_eq_range', List.length_nil]
    have hloop := levLoop_rowOf s2 s1 []
    rw [List.length_nil, List.append_nil] at hloop
    rw [init, hloop, rowOf_getLastD, List.append_nil, editDist_reverse]
end YTStudio

namespace YTStudio

/-- The Python `_levenshtein` equals the classic textbook edit distance. -/
theorem _levenshtein_editDist (s1 s2 : List Char) : _levenshtein s1 s2 = editDist s1 s2 := by
  unfold _levenshtein
  by_cases h : s1.length < s2.length
  · rw [if_pos h, levCore_editDist, editDist_comm]
  · rw [if_neg h, levCore_editDist]

/-! ## Correctness of `_find_closest` (claim C3) -/

/-- Invariant of the `_find_closest` candidate loop: the final distance is a
lower bound on every candidate's distance and on the incoming bound, and the
final best is either the incoming best (no update) or the first candidate
attaining the final distance, every earlier candidate lying strictly
farther. -/
theorem _find_closest_go_spec (name : String) : ∀ (cs : List String) (best : Option String)
    (bd : ℕ),
    (∀ c ∈ cs, (_find_closest_go name cs best bd).2 ≤ levLower name c) ∧
    (_find_closest_go name cs best bd).2 ≤ bd ∧
    (((_find_closest_go name cs best bd).2 = bd ∧
        (_find_closest_go name cs best bd).1 = best) ∨
      (∃ l₁ x l₂, cs = l₁ ++ x :: l₂ ∧
        (_find_closest_go name cs best bd).1 = some x ∧
        (_find_closest_go name cs best bd).2 = levLower name x ∧
        (_find_closest_go name cs best bd).2 < bd ∧
        ∀ c ∈ l₁, (_find_closest_go name cs best bd).2 < levLower name c))
  | [], best, bd => by
      refine ⟨by simp, ?_, Or.inl ⟨rfl, rfl⟩⟩
      simp [_find_closest_go]
  | candidate :: rest, best, bd => by
      by_cases h : levLower name candidate < bd
      · have hgo : _find_closest_go name (candidate :: rest) best bd =
            _find_closest_go name rest (some candidate) (levLower name candidate) := by
          simp [_find_closest_go, h]
        obtain ⟨ih1, ih2, ih3⟩ :=
          _find_closest_go_spec name rest (some candidate) (levLower name candidate)
        rw [hgo]
        refine ⟨?_, by omega, ?_⟩
        · intro c hc
          rcases List.mem_cons.mp hc with rfl | hc
          · exact ih2
          · exact ih1 c hc
        · rcases ih3 with ⟨heq, hbest⟩ | ⟨l₁, x, l₂, hsplit, hb, hd, hlt, hstrict⟩
          · exact Or.inr ⟨[], candidate, rest, rfl, hbest, heq, by omega, by simp⟩
          · refine Or.inr ⟨candidate :: l₁, x, l₂, by rw [hsplit]; rfl, hb, hd, by omega, ?_⟩
            intro c hc
            rcases List.mem_cons.mp hc with rfl | hc
            · omega
            · exact hstrict c hc
      · have hgo : _find_closest_go name (candidate :: rest) best bd =
            _find_closest_go name rest best bd := by
          simp [_find_closest_go, h]
        obtain ⟨ih1, ih2, ih3⟩ := _find_closest_go_spec name rest best bd
        rw [hgo]
        refine ⟨?_, ih2, ?_⟩
        · intro c hc
          rcases List.mem_cons.mp hc with rfl | hc
          · omega
          · exact ih1 c hc
        · rcases ih3 with ⟨heq, hbest⟩ | ⟨l₁, x, l₂, hsplit, hb, hd, hlt, hstrict⟩
          · exact Or.inl ⟨heq, hbest⟩
          · refine Or.inr ⟨candidate :: l₁, x, l₂, by rw [hsplit]; rfl, hb, hd, hlt, ?_⟩
            intro c hc
            rcases List.mem_cons.mp hc with rfl | hc
            · omega
            · exact hstrict c hc

/-- `_find_closest` returns the first candidate at minimal (lowercased)
distance when that distance is within the threshold, and `none` exactly when
every candidate is beyond it. -/
theorem _find_closest_spec (name : String) (cs : List String) (k : ℕ) :
    (∀ x, _find_closest name cs k = some x →
        x ∈ cs ∧ levLower name x ≤ k ∧
        (∀ c ∈ cs, levLower name x ≤ levLower name c) ∧
        ∃ l₁ l₂, cs = l₁ ++ x :: l₂ ∧ ∀ c ∈ l₁, levLower name x < levLower name c) ∧
    (_find_closest name cs k = none → ∀ c ∈ cs, k < levLower name c) := by
  obtain ⟨h1, h2, h3⟩ := _find_closest_go_spec name cs none (k + 1)
  unfold _find_closest
  by_cases hk : (_find_closest_go name cs none (k + 1)).2 ≤ k
  · rw [if_pos hk]
    rcases h3 with ⟨heq, _⟩ | ⟨l₁, x, l₂, hsplit, hb, hd, _, hstrict⟩
    · omega
    · constructor
      · intro y hy
        rw [hb] at hy
        obtain rfl := Option.some.inj hy
        refine ⟨by rw [hsplit]; exact List.mem_append_right l₁ (List.mem_cons_self _ _),
          by omega, ?_, l₁, l₂, hsplit, ?_⟩
        · intro c hc
          have := h1 c hc
          omega
        · intro c hc
          have := hstrict c hc
          omega
      · intro hnone
        rw [hb] at hnone
        exact absurd hnone (Option.some_ne_none x)
  · rw [if_neg hk]
    refine ⟨fun x hx => absurd hx (Option.noConfusion), fun _ c hc => ?_⟩
    have := h1 c hc
    omega

/-! ## Helper facts for `validate_metrics` / `validate_dimensions` (claim C2) -/

/-- `validate_metrics` emits exactly one message per unknown name, in input
order. -/
theorem validate_metrics_filter : ∀ names : List String,
    validate_metrics names =
      (names.filter fun n => ! METRIC_NAMES.contains n).map metricError
  | [] => rfl
  | n :: rest => by
      by_cases h : n ∈ METRIC_NAMES
      · simp [validate_metrics, h, List.filter_cons, validate_metrics_filter rest]
      · simp [validate_metrics, h, List.filter_cons, validate_metrics_filter rest]

/-- `validate_dimensions` emits exactly one message per unknown name, in
input order. -/
theorem validate_dimensions_filter : ∀ names : List String,
    validate_dimensions names =
      (names.filter fun n => ! DIMENSION_NAMES.contains n).map dimensionError
  | [] => rfl
  | n :: rest => by
      by_cases h : n ∈ DIMENSION_NAMES
      · simp [validate_dimensions, h, List.filter_cons, validate_dimensions_filter rest]
      · simp [validate_dimensions, h, List.filter_cons, validate_dimensions_filter rest]

end YTStudio

namespace YTStudio

/-! ## The `query` command's success path (claims C1, C5, C10) -/

/-- When every validation passes, `query` reaches its API request and sends
exactly the parameters `queryParamsOf` describes. -/
theorem query_ok (args : QueryArgs) (today default_start channel_id : String)
    (hm : (_parse_comma_list args.metrics_str).isEmpty = false)
    (hv : validate_metrics (_parse_comma_list args.metrics_str) = [])
    (hd : validate_dimensions (queryDimensionNames args) = [])
    (hf : args.filter_list.find? (fun f => ! containsSub f.data "==".data) = none) :
    query args today default_start channel_id =
      .ok (queryParamsOf args today default_start channel_id) := by
  simp [query, hm, hv, hd, hf]

/-! ## Helper facts for the response formatter (claim C7) -/

/-- Indexing the JSON records: record `i` pairs the headers with row `i`
(out-of-range indices give the empty record on both sides). -/
theorem format_query_json_getD : ∀ (rows : List (List PyVal)) (headers : List String) (i : ℕ),
    (rows.map fun row => headers.zip row).getD i [] = headers.zip (rows.getD i [])
  | [], headers, i => by simp
  | r :: rest, headers, 0 => by simp
  | r :: rest, headers, i + 1 => by
      rw [List.map_cons, List.getD_cons_succ, List.getD_cons_succ,
        format_query_json_getD rest headers i]

/-- The keys of a zip are a sublist of the first list. -/
theorem map_fst_zip_sublist : ∀ (l₁ : List String) (l₂ : List PyVal),
    (((l₁.zip l₂).map Prod.fst)).Sublist l₁
  | [], _ => by simp
  | _ :: _, [] => by simp
  | a :: l₁, b :: l₂ => by
      rw [List.zip_cons_cons, List.map_cons]
      exact (map_fst_zip_sublist l₁ l₂).cons₂ a

/-- Association-list lookup with distinct keys finds each stored pair. -/
theorem lookup_of_mem : ∀ (l : List (String × PyVal)), (l.map Prod.fst).Nodup →
    ∀ a b, (a, b) ∈ l → l.lookup a = some b
  | [], _, a, b, hmem => absurd hmem (List.not_mem_nil _)
  | (x, y) :: rest, hnd, a, b, hmem => by
      rcases List.mem_cons.mp hmem with heq | hmem'
      · have h1 : a = x := congrArg Prod.fst heq
        have h2 : b = y := congrArg Prod.snd heq
        subst h1
        subst h2
        simp [List.lookup]
      · have hne : a ≠ x := by
          intro hax
          have hmm : a ∈ rest.map Prod.fst := List.mem_map.mpr ⟨(a, b), hmem', rfl⟩
          rw [List.map_cons, List.nodup_cons] at hnd
          rw [hax] at hmm
          exact hnd.1 hmm
        have : (a == x) = false := by simp [hne]
        simp only [List.lookup, this]
        exact lookup_of_mem rest (by rw [List.map_cons, List.nodup_cons] at hnd; exact hnd.2)
          a b hmem'

/-- Plain CSV fields render as themselves. -/
theorem map_csvField_id : ∀ hs : List String, (∀ h ∈ hs, csvNeedsQuote h = false) →
    hs.map csvField = hs
  | [], _ => rfl
  | h :: t, hall => by
      have h1 : csvNeedsQuote h = false := hall h (List.mem_cons_self _ _)
      rw [List.map_cons, map_csvField_id t (fun x hx => hall x (List.mem_cons_of_mem _ hx))]
      simp [csvField, h1]

end YTStudio

namespace YTStudio

/-! ## The claims -/

/-- Claim C1 (counterexample): a query whose dimension set includes `video`
and that supplies neither a sort field nor a result limit is NOT rejected:
the command's validation succeeds and the API request is issued, with no
`sort` and no `maxResults` parameter.  No video-specific check exists in the
source. -/
theorem C1_counterexample :
    query { metrics_str := "views", dimensions_str := some "video" } "2026-01-02" "2025-12-05"
        "UCx" =
      .ok { ids := "channel==UCx", startDate := "2025-12-05", endDate := "2026-01-02",
            metrics := "views", dimensions := some "video", filters := none, sort := none,
            maxResults := none, currency := none } ∧
    "video" ∈ queryDimensionNames { metrics_str := "views", dimensions_str := some "video" } := by
  decide

/-- Claim C1 (amended): the query command enforces no rule tying the `video`
dimension to `sort`/`limit`.  Whenever names validate and filters are
well-formed, a query whose dimensions include `video` with no sort and no
limit passes validation and is sent, its parameters carrying the `video`
dimension but no `sort` and no `maxResults`. -/
theorem C1_no_video_sort_limit_rule (args : QueryArgs) (today default_start channel_id : String)
    (hm : (_parse_comma_list args.metrics_str).isEmpty = false)
    (hv : validate_metrics (_parse_comma_list args.metrics_str) = [])
    (hd : validate_dimensions (queryDimensionNames args) = [])
    (hf : args.filter_list.find? (fun f => ! containsSub f.data "==".data) = none)
    (hvideo : "video" ∈ queryDimensionNames args)
    (hsort : args.sort = none) (hlimit : args.limit = none) :
    query args today default_start channel_id =
      .ok (queryParamsOf args today default_start channel_id) ∧
    (queryParamsOf args today default_start channel_id).sort = none ∧
    (queryParamsOf args today default_start channel_id).maxResults = none ∧
    (queryParamsOf args today default_start channel_id).dimensions =
      some (joinWith "," (queryDimensionNames args)) := by
  have hne : (queryDimensionNames args).isEmpty = false := by
    cases hq : queryDimensionNames args with
    | nil => rw [hq] at hvideo; exact absurd hvideo (List.not_mem_nil _)
    | cons a l => rfl
  refine ⟨query_ok args today default_start channel_id hm hv hd hf, ?_, ?_, ?_⟩
  · simp [queryParamsOf, pyTruthyStr, hsort]
  · simp [queryParamsOf, pyTruthyInt, hlimit]
  · simp [queryParamsOf, hne]

/-- Claim C1 (witness): the amended theorem at the video query of the
counterexample. -/
theorem C1_witness :
    query { metrics_str := "views", dimensions_str := some "video" } "2026-01-02" "2025-12-05"
        "UCx" =
      .ok (queryParamsOf { metrics_str := "views", dimensions_str := some "video" }
        "2026-01-02" "2025-12-05" "UCx") ∧
    (queryParamsOf { metrics_str := "views", dimensions_str := some "video" }
      "2026-01-02" "2025-12-05" "UCx").sort = none ∧
    (queryParamsOf { metrics_str := "views", dimensions_str := some "video" }
      "2026-01-02" "2025-12-05" "UCx").maxResults = none ∧
    (queryParamsOf { metrics_str := "views", dimensions_str := some "video" }
      "2026-01-02" "2025-12-05" "UCx").dimensions =
      some (joinWith ","
        (queryDimensionNames { metrics_str := "views", dimensions_str := some "video" })) :=
  C1_no_video_sort_limit_rule _ _ _ _ (by decide) (by decide) (by decide) (by decide)
    (by decide) rfl rfl

/-- Claim C2: `validate_metrics` returns exactly one error per unknown name
in input order and none for known names; the message is
`Unknown metric '<name>'.` with ` Did you mean '<s>'?` appended exactly when
the fuzzy match (threshold 3) finds `s`; the concrete examples of the spec
hold; the same contract holds for `validate_dimensions`. -/
theorem C2_validate_names :
    (∀ names : List String, validate_metrics names =
        (names.filter fun n => ! METRIC_NAMES.contains n).map metricError) ∧
    (∀ names : List String, validate_dimensions names =
        (names.filter fun n => ! DIMENSION_NAMES.contains n).map dimensionError) ∧
    (∀ n s, find_closest_metric n = some s →
        metricError n = "Unknown metric '" ++ n ++ "'." ++ (" Did you mean '" ++ s ++ "'?")) ∧
    (∀ n, find_closest_metric n = none → metricError n = "Unknown metric '" ++ n ++ "'.") ∧
    (∀ n s, find_closest_dimension n = some s →
        dimensionError n =
          "Unknown dimension '" ++ n ++ "'." ++ (" Did you mean '" ++ s ++ "'?")) ∧
    (∀ n, find_closest_dimension n = none →
        dimensionError n = "Unknown dimension '" ++ n ++ "'.") ∧
    validate_metrics ["views", "likes"] = [] ∧
    validate_metrics ["veiws"] = ["Unknown metric 'veiws'. Did you mean 'views'?"] ∧
    validate_dimensions ["contry"] = ["Unknown dimension 'contry'. Did you mean 'country'?"] := by
  refine ⟨validate_metrics_filter, validate_dimensions_filter, ?_, ?_, ?_, ?_,
    by decide, by decide, by decide⟩
  · intro n s h
    simp [metricError, h]
  · intro n h
    simp [metricError, h]
  · intro n s h
    simp [dimensionError, h]
  · intro n h
    simp [dimensionError, h]

/-- Claim C2 (witness): the suggestion branch of the message contract at the
spec's concrete typo. -/
theorem C2_witness :
    metricError "veiws" =
      "Unknown metric '" ++ "veiws" ++ "'." ++ (" Did you mean '" ++ "views" ++ "'?") :=
  C2_validate_names.2.2.1 "veiws" "views" (by decide)

/-- Claim C3: `_find_closest` is a case-insensitive nearest-neighbour search
by `_levenshtein` distance over the lowercased candidate list: a `some`
result is a candidate within the threshold, of minimal distance, and first
in candidate order among the minima; a `none` result means every candidate
is beyond the threshold.  `find_closest_metric`/`find_closest_dimension`
run it over the full registries (default threshold 3), and the spec's
concrete examples hold. -/
theorem C3_find_closest :
    (∀ (name : String) (cs : List String) (k : ℕ) (x : String),
        _find_closest name cs k = some x →
          x ∈ cs ∧ levLower name x ≤ k ∧
          (∀ c ∈ cs, levLower name x ≤ levLower name c) ∧
          ∃ l₁ l₂, cs = l₁ ++ x :: l₂ ∧ ∀ c ∈ l₁, levLower name x < levLower name c) ∧
    (∀ (name : String) (cs : List String) (k : ℕ),
        _find_closest name cs k = none → ∀ c ∈ cs, k < levLower name c) ∧
    (∀ (name : String) (k : ℕ),
        find_closest_metric name k = _find_closest name METRIC_NAMES k ∧
        find_closest_dimension name k = _find_closest name DIMENSION_NAMES k) ∧
    find_closest_metric "veiws" = some "views" ∧
    find_closest_metric "VIEWS" = some "views" ∧
    find_closest_metric "zzzzzzzzz" = none := by
  refine ⟨fun name cs k x => (_find_closest_spec name cs k).1 x,
    fun name cs k => (_find_closest_spec name cs k).2,
    fun name k => ⟨rfl, rfl⟩, by decide, by decide, by decide⟩

/-- Claim C3 (witness): the nearest-neighbour characterisation at the typo
`veiws` over the metric registry. -/
theorem C3_witness :
    "views" ∈ METRIC_NAMES ∧ levLower "veiws" "views" ≤ 3 ∧
    ∀ c ∈ METRIC_NAMES, levLower "veiws" "views" ≤ levLower "veiws" c := by
  have h := C3_find_closest.1 "veiws" METRIC_NAMES 3 "views" (by decide)
  exact ⟨h.1, h.2.1, h.2.2.1⟩

/-- Claim C4 (counterexample): the Levenshtein function itself compares
characters exactly, so it is not the case-insensitive classic distance the
claim describes: on `"A"` versus `"a"` it returns 1 where the
case-insensitive distance is 0. -/
theorem C4_counterexample :
    _levenshtein ['A'] ['a'] = 1 ∧ editDistCI ['A'] ['a'] = 0 ∧
    _levenshtein ['A'] ['a'] ≠ editDistCI ['A'] ['a'] := by
  have h0 : editDistCI ['A'] ['a'] = 0 := by
    show editDist (lowerL ['A']) (lowerL ['a']) = 0
    rw [show lowerL ['A'] = ['a'] from by decide, show lowerL ['a'] = ['a'] from by decide,
      editDist_cons_cons]
    simp [editDist_nil_left, editDist_cons_nil]
  exact ⟨by decide, h0, by rw [h0]; decide⟩

/-- Claim C4 (amended): the rolling-row `_levenshtein` equals the classic
dynamic-programming edit distance (insertion, deletion, substitution each
cost 1) with exact character comparison; case-insensitivity is obtained by
the caller lowercasing both arguments, as `_find_closest` does. -/
theorem C4_levenshtein_classic :
    (∀ s1 s2 : List Char, _levenshtein s1 s2 = editDist s1 s2) ∧
    (∀ a b : String, levLower a b = editDistCI a.data b.data) := by
  refine ⟨_levenshtein_editDist, fun a b => ?_⟩
  show _levenshtein (lower a).data (lower b).data = editDistCI a.data b.data
  rw [_levenshtein_editDist]
  rfl

end YTStudio

namespace YTStudio

/-- Claim C5: with valid metric and dimension names, a filter list containing
a token without `"=="` makes `query` fail with the formatting error for the
first such token before any request is built, while a filter list whose
tokens all contain `"=="` is accepted and joined with `";"` into the query's
`filters` parameter. -/
theorem C5_filter_validation (args : QueryArgs) (today default_start channel_id : String)
    (hm : (_parse_comma_list args.metrics_str).isEmpty = false)
    (hv : validate_metrics (_parse_comma_list args.metrics_str) = [])
    (hd : validate_dimensions (queryDimensionNames args) = []) :
    (args.filter_list.find? (fun f => ! containsSub f.data "==".data) = none ↔
        ∀ f ∈ args.filter_list, containsSub f.data "==".data = true) ∧
    (∀ f₀, args.filter_list.find? (fun f => ! containsSub f.data "==".data) = some f₀ →
        query args today default_start channel_id = .error (.invalidFilter f₀)) ∧
    (args.filter_list.find? (fun f => ! containsSub f.data "==".data) = none →
        query args today default_start channel_id =
          .ok (queryParamsOf args today default_start channel_id) ∧
        (args.filter_list.isEmpty = false →
          (queryParamsOf args today default_start channel_id).filters =
            some (joinWith ";" args.filter_list))) := by
  refine ⟨by simp [List.find?_eq_none], ?_, ?_⟩
  · intro f₀ hf
    simp [query, hm, hv, hd, hf]
  · intro hfn
    exact ⟨query_ok args today default_start channel_id hm hv hd hfn,
      fun hne => by simp [queryParamsOf, hne]⟩

/-- Claim C5 (witness): the malformed token of the test suite is rejected
with its formatting error. -/
theorem C5_witness :
    query { metrics_str := "views", filter_list := ["video=abc"] } "2026-01-02" "2025-12-05"
        "UCx" =
      .error (.invalidFilter "video=abc") :=
  (C5_filter_validation { metrics_str := "views", filter_list := ["video=abc"] }
      "2026-01-02" "2025-12-05" "UCx" (by decide) (by decide) (by decide)).2.1
    "video=abc" (by decide)

/-- Claim C6: the metric and dimension registries have pairwise distinct
names, every entry's group lies in the derived group list, and the derived
group lists hold exactly the groups that occur (each list without
duplicates). -/
theorem C6_registry_invariants :
    (METRICS.map fun m => m.name).Nodup ∧
    (DIMENSIONS.map fun d => d.name).Nodup ∧
    (∀ m ∈ METRICS, m.group ∈ METRIC_GROUPS) ∧
    (∀ g ∈ METRIC_GROUPS, g ∈ METRICS.map fun m => m.group) ∧
    (∀ d ∈ DIMENSIONS, d.group ∈ DIMENSION_GROUPS) ∧
    (∀ g ∈ DIMENSION_GROUPS, g ∈ DIMENSIONS.map fun d => d.group) ∧
    METRIC_GROUPS.Nodup ∧ DIMENSION_GROUPS.Nodup := by
  decide

/-- Claim C7 (counterexample): a column header containing the delimiter is
quoted by the CSV writer, so the first CSV line is not the plain
comma-joined headers for every response. -/
theorem C7_counterexample :
    (_format_query_csv_lines { columnHeaders := ["a,b"], rows := [] }).headD "" = "\"a,b\"" ∧
    (_format_query_csv_lines { columnHeaders := ["a,b"], rows := [] }).headD "" ≠
      joinWith "," ["a,b"] := by
  decide

/-- Claim C7 (amended): JSON output is the per-row list of header/value
pairs (`zip`, truncating at the shorter side), which under distinct headers
maps each header to its row value; the first CSV line is the comma-joined
headers with CSV minimal quoting, hence exactly the comma-joined headers
when no header needs quoting; the spec's concrete JSON and CSV examples
hold. -/
theorem C7_format_response :
    (∀ (resp : QueryResponse) (i : ℕ),
        (_format_query_json resp).getD i [] = resp.columnHeaders.zip (resp.rows.getD i [])) ∧
    (∀ (resp : QueryResponse) (row : List PyVal) (h : String) (v : PyVal),
        resp.columnHeaders.Nodup → (h, v) ∈ resp.columnHeaders.zip row →
        (resp.columnHeaders.zip row).lookup h = some v) ∧
    (∀ resp : QueryResponse, (∀ h ∈ resp.columnHeaders, csvNeedsQuote h = false) →
        (_format_query_csv_lines resp).headD "" = joinWith "," resp.columnHeaders) ∧
    _format_query_json { columnHeaders := ["day", "views", "likes"],
                         rows := [[.str "2026-01-01", .int 1500, .int 45]] } =
      [[("day", .str "2026-01-01"), ("views", .int 1500), ("likes", .int 45)]] ∧
    (_format_query_csv_lines { columnHeaders := ["day", "views", "likes"],
                               rows := [[.str "2026-01-01", .int 1500, .int 45]] }).headD "" =
      "day,views,likes" := by
  refine ⟨fun resp i => format_query_json_getD resp.rows resp.columnHeaders i,
    ?_, ?_, by decide, by decide⟩
  · intro resp row h v hnod hmem
    exact lookup_of_mem _ (List.Nodup.sublist (map_fst_zip_sublist _ _) hnod) h v hmem
  · intro resp hplain
    show csvRow resp.columnHeaders = joinWith "," resp.columnHeaders
    unfold csvRow
    rw [map_csvField_id _ hplain]

/-- Claim C7 (witness): the quoting-free hypothesis at the spec's concrete
headers. -/
theorem C7_witness :
    (_format_query_csv_lines { columnHeaders := ["day", "views", "likes"],
                               rows := [[.str "2026-01-01", .int 1500, .int 45]] }).headD "" =
      joinWith "," ["day", "views", "likes"] :=
  C7_format_response.2.2.1 { columnHeaders := ["day", "views", "likes"],
                             rows := [[.str "2026-01-01", .int 1500, .int 45]] } (by decide)

/-- Claim C8: with the raw flag set `format_number` is plain `str(n)` for
every `n`; with it clear, values under 1000 print plainly, values in
`[1000, 10^6)` print as the double quotient by 1000 with one rounded decimal
and suffix `K`, values from `10^6` up as the quotient by `10^6` with suffix
`M`; in particular 999 → "999", 1500 → "1.5K", 2500000 → "2.5M". -/
theorem C8_format_number :
    (∀ n : ℤ, format_number true n = Int.repr n) ∧
    (∀ n : ℤ, n < 1000 → format_number false n = Int.repr n) ∧
    (∀ n : ℤ, 1000 ≤ n → n < 1000000 →
        format_number false n =
          py1f (pyDivDouble n.toNat 1000).1 (pyDivDouble n.toNat 1000).2 ++ "K") ∧
    (∀ n : ℤ, 1000000 ≤ n →
        format_number false n =
          py1f (pyDivDouble n.toNat 1000000).1 (pyDivDouble n.toNat 1000000).2 ++ "M") ∧
    format_number false 999 = "999" ∧
    format_number false 1500 = "1.5K" ∧
    format_number false 2500000 = "2.5M" := by
  refine ⟨fun n => by simp [format_number], ?_, ?_, ?_, by decide, by decide, by decide⟩
  · intro n h
    have hA : ¬ (n ≥ 1000000) := by omega
    have hB : ¬ (n ≥ 1000) := by omega
    simp [format_number, hA, hB]
  · intro n h1 h2
    have hA : ¬ (n ≥ 1000000) := by omega
    have hB : n ≥ 1000 := h1
    simp [format_number, hA, hB]
  · intro n h
    have hA : n ≥ 1000000 := h
    simp [format_number, hA]

/-- Claim C8 (witness): the `K` branch at 1500. -/
theorem C8_witness :
    format_number false 1500 =
      py1f (pyDivDouble (1500 : ℤ).toNat 1000).1 (pyDivDouble (1500 : ℤ).toNat 1000).2 ++ "K" :=
  C8_format_number.2.2.1 1500 (by decide) (by decide)

/-- Claim C9 (counterexample): an integer cell under a `ctr` column is
rendered by `format_number`, with no percent suffix, so the naming
heuristics do not apply to every numeric cell. -/
theorem C9_counterexample :
    _format_cell false "ctr" (PyVal.int 5) = "5" ∧
    endsWithL (_format_cell false "ctr" (PyVal.int 5)).data ['%'] = false := by
  decide

/-- Claim C9 (amended): for float-valued cells the naming heuristics hold: a
column name containing `rate`, `percentage` or `ctr` (case-insensitively)
renders the value with two decimals and a percent suffix; otherwise a name
containing `cpm` renders it as `$` plus two decimals. -/
theorem C9_float_cell_units :
    (∀ (raw : Bool) (header : String) (num den : ℕ),
        (containsSub (lowerL header.data) "rate".data ||
          containsSub (lowerL header.data) "percentage".data ||
          containsSub (lowerL header.data) "ctr".data) = true →
        _format_cell raw header (.float num den) = py2f num den ++ "%") ∧
    (∀ (raw : Bool) (header : String) (num den : ℕ),
        (containsSub (lowerL header.data) "rate".data ||
          containsSub (lowerL header.data) "percentage".data ||
          containsSub (lowerL header.data) "ctr".data) = false →
        containsSub (lowerL header.data) "cpm".data = true →
        _format_cell raw header (.float num den) = "$" ++ py2f num den) := by
  constructor
  · intro raw header num den h
    simp only [_format_cell, h, if_true]
  · intro raw header num den h1 h2
    simp only [_format_cell, h1, h2, Bool.false_eq_true, if_false, if_true]

/-- Claim C9 (witness): the percent branch at a concrete rate column. -/
theorem C9_witness :
    _format_cell false "cardClickRate" (PyVal.float 9 2) = py2f 9 2 ++ "%" :=
  C9_float_cell_units.1 false "cardClickRate" 9 2 (by decide)

/-- Claim C10: the three filter-only dimensions (`continent`,
`subContinent`, `group`) pass `validate_dimensions` without error, and a
query grouping by all three passes validation and is sent with them in its
`dimensions` parameter: the `filter_only` flag is never consulted by the
query command. -/
theorem C10_filter_only_not_enforced :
    ((DIMENSIONS.filter fun d => d.filter_only).map fun d => d.name) =
      ["continent", "subContinent", "group"] ∧
    validate_dimensions ["continent", "subContinent", "group"] = [] ∧
    query { metrics_str := "views", dimensions_str := some "continent,subContinent,group" }
        "2026-01-02" "2025-12-05" "UCx" =
      .ok { ids := "channel==UCx", startDate := "2025-12-05", endDate := "2026-01-02",
            metrics := "views", dimensions := some "continent,subContinent,group",
            filters := none, sort := none, maxResults := none, currency := none } := by
  decide

end YTStudio
